import Mathlib

/-!
Verification of the ASI-GO-toy research loop against its specification.

The definitions below are a shallow embedding of the Python sources:
`utils.py` (text similarity), `cognition_base.py` (knowledge store),
`analyst.py` (result analysis), `engineer.py` (sandbox output parsing)
and `researcher.py` (mutation-based hypothesis generation).

Modelling conventions:
* Python floats are modelled as `ℚ` (and as `ℝ` where the code computes a
  real power `0.95 ** (days/7)`); `float('inf')` defaults are modelled with
  `WithTop ℚ`.
* Timestamps (`datetime.now().isoformat()`, compared lexicographically,
  consistent with time order; age measured via `timedelta.days`) are
  modelled as natural-number day counts.
* Python dicts holding insight contents are represented by their `str(...)`
  rendering, which is the only view the similarity logic ever sees.
* `json.loads` (a standard-library call) is passed in as an oracle
  `String → Option Json`.
-/

/-! ## utils.calculate_similarity -/

/-- Helper for whitespace splitting: walks the character list accumulating
the current word (reversed); whitespace runs produce no empty words —
the behaviour of Python `str.split()` with no separator. -/
def splitWsAux : List Char → List Char → List (List Char)
  | [], acc => if acc = [] then [] else [acc.reverse]
  | c :: cs, acc =>
    if c.isWhitespace then
      if acc = [] then splitWsAux cs []
      else acc.reverse :: splitWsAux cs []
    else splitWsAux cs (c :: acc)

/-- Split a character list on whitespace runs, dropping empty fragments. -/
def splitWs (l : List Char) : List (List Char) := splitWsAux l []

/-- Word set of a text: lowercase, split on whitespace — models Python
`set(text.lower().split())`. Words are represented as character lists. -/
def wordSet (s : String) : Finset (List Char) :=
  (splitWs (s.data.map Char.toLower)).toFinset

/-- `utils.calculate_similarity`: Jaccard similarity of the word sets,
with the source's early-exit zero cases for empty texts / empty word sets. -/
def calculate_similarity (text1 text2 : String) : ℚ :=
  if text1 = "" ∨ text2 = "" then 0
  else
    let words1 := wordSet text1
    let words2 := wordSet text2
    if words1 = ∅ ∨ words2 = ∅ then 0
    else
      let inter := words1 ∩ words2
      let union := words1 ∪ words2
      if union = ∅ then 0 else (inter.card : ℚ) / (union.card : ℚ)

/-! ## cognition_base.CognitionBase: the insight store -/

/-- An insight record (`cognition_base.add_insight` lines 55-61).
`content` is the `str(...)` rendering of the stored content dict; the
relevance score is generic in `α` (the running system instantiates `α`
with the reals: scores are overwritten by `_update_relevance_scores`
with values of the form `0.95 ** (days/7) * (1 + 0.1 * usage)`). -/
structure InsightRecord (α : Type) where
  id : String
  timestamp : ℕ
  content : String
  relevanceScore : α
  usageCount : ℕ
deriving Repr, DecidableEq

/-- The sort key used by eviction: the Python tuple
`(x["relevance_score"], x["timestamp"])`. -/
def insightKey {α : Type} (r : InsightRecord α) : α × ℕ :=
  (r.relevanceScore, r.timestamp)

/-- Lexicographic `≤` on `(relevance_score, timestamp)` pairs — Python's
tuple comparison. -/
def lexLe {α : Type} [LinearOrder α] (x y : α × ℕ) : Prop :=
  x.1 < y.1 ∨ (x.1 = y.1 ∧ x.2 ≤ y.2)

instance {α : Type} [LinearOrder α] : DecidableRel (@lexLe α _) := by
  intro x y
  unfold lexLe
  infer_instance

/-- The descending sort relation used by
`self.insights.sort(key=..., reverse=True)`. -/
def keyDescRel {α : Type} [LinearOrder α] (a b : InsightRecord α) : Prop :=
  lexLe (insightKey b) (insightKey a)

instance {α : Type} [LinearOrder α] : DecidableRel (@keyDescRel α _) := by
  intro a b
  unfold keyDescRel
  infer_instance

/-- Sort descending by `(relevance_score, timestamp)`
(`cognition_base.py` lines 70-73). -/
def sortDescByKey {α : Type} [LinearOrder α] (l : List (InsightRecord α)) :
    List (InsightRecord α) :=
  l.insertionSort keyDescRel

/-- `cognition_base._is_duplicate_insight`: some stored insight's content
has similarity above `0.9` to the new content. -/
def is_duplicate_insight {α : Type} (insights : List (InsightRecord α))
    (newContent : String) : Bool :=
  insights.any (fun e => decide ((9 : ℚ)/10 < calculate_similarity e.content newContent))

/-- `cognition_base.add_insight` (lines 51-76): drop duplicates, append,
and when the count exceeds `MAX_INSIGHTS_STORED` sort descending by
`(relevance_score, timestamp)` and truncate. -/
def add_insight {α : Type} [LinearOrder α] (MAX_INSIGHTS_STORED : ℕ)
    (insights : List (InsightRecord α)) (record : InsightRecord α) :
    List (InsightRecord α) :=
  if is_duplicate_insight insights record.content then insights
  else
    let l := insights ++ [record]
    if MAX_INSIGHTS_STORED < l.length then
      (sortDescByKey l).take MAX_INSIGHTS_STORED
    else l

/-- The records an `add_insight` call evicts: the tail of the
descending-sorted list past the capacity, empty when no eviction occurs. -/
def evictedByAdd {α : Type} [LinearOrder α] (MAX_INSIGHTS_STORED : ℕ)
    (insights : List (InsightRecord α)) (record : InsightRecord α) :
    List (InsightRecord α) :=
  if is_duplicate_insight insights record.content then []
  else
    let l := insights ++ [record]
    if MAX_INSIGHTS_STORED < l.length then
      (sortDescByKey l).drop MAX_INSIGHTS_STORED
    else []

theorem lexLe_total {α : Type} [LinearOrder α] (x y : α × ℕ) :
    lexLe x y ∨ lexLe y x := by
  unfold lexLe
  rcases lt_trichotomy x.1 y.1 with h | h | h
  · exact Or.inl (Or.inl h)
  · rcases le_total x.2 y.2 with h2 | h2
    · exact Or.inl (Or.inr ⟨h, h2⟩)
    · exact Or.inr (Or.inr ⟨h.symm, h2⟩)
  · exact Or.inr (Or.inl h)

theorem lexLe_trans {α : Type} [LinearOrder α] {x y z : α × ℕ}
    (hxy : lexLe x y) (hyz : lexLe y z) : lexLe x z := by
  unfold lexLe at *
  rcases hxy with h | ⟨he, h2⟩
  · rcases hyz with h' | ⟨he', _⟩
    · exact Or.inl (h.trans h')
    · exact Or.inl (he' ▸ h)
  · rcases hyz with h' | ⟨he', h2'⟩
    · exact Or.inl (he ▸ h')
    · exact Or.inr ⟨he.trans he', h2.trans h2'⟩

instance {α : Type} [LinearOrder α] : IsTotal (InsightRecord α) keyDescRel :=
  ⟨fun a b => lexLe_total (insightKey b) (insightKey a)⟩

instance {α : Type} [LinearOrder α] : IsTrans (InsightRecord α) keyDescRel :=
  ⟨fun _ _ _ hab hbc => lexLe_trans hbc hab⟩

theorem sortDescByKey_perm {α : Type} [LinearOrder α]
    (l : List (InsightRecord α)) : (sortDescByKey l).Perm l :=
  List.perm_insertionSort keyDescRel l

theorem sortDescByKey_sorted {α : Type} [LinearOrder α]
    (l : List (InsightRecord α)) : List.Sorted keyDescRel (sortDescByKey l) :=
  List.sorted_insertionSort keyDescRel l

/-- C1: starting from a store holding at most `MAX_INSIGHTS_STORED` insights,
after an `add_insight` call the store again holds at most
`MAX_INSIGHTS_STORED` insights; the kept and evicted records together are a
permutation of the would-be store, and every evicted record has a
`(relevance_score, timestamp)` key at most that of every kept record — the
evicted entries are exactly those with the lowest keys. -/
theorem add_insight_capacity_eviction {α : Type} [LinearOrder α]
    (MAX : ℕ) (insights : List (InsightRecord α)) (record : InsightRecord α)
    (hcap : insights.length ≤ MAX) :
    (add_insight MAX insights record).length ≤ MAX ∧
    ((add_insight MAX insights record) ++ (evictedByAdd MAX insights record)).Perm
      (if is_duplicate_insight insights record.content then insights
       else insights ++ [record]) ∧
    ∀ e ∈ evictedByAdd MAX insights record,
      ∀ k ∈ add_insight MAX insights record,
        lexLe (insightKey e) (insightKey k) := by
  unfold add_insight evictedByAdd
  by_cases hdup : is_duplicate_insight insights record.content
  · simp only [hdup, if_true]
    exact ⟨hcap, by simp, by simp⟩
  · simp only [hdup, if_false, Bool.false_eq_true]
    by_cases hover : MAX < (insights ++ [record]).length
    · simp only [hover, if_true]
      refine ⟨?_, ?_, ?_⟩
      · rw [List.length_take]
        exact Nat.min_le_left _ _
      · rw [List.take_append_drop]
        exact sortDescByKey_perm _
      · intro e he k hk
        exact (sortDescByKey_sorted (insights ++ [record])).rel_of_mem_take_of_mem_drop hk he
    · simp only [hover, if_false]
      exact ⟨Nat.le_of_not_lt hover, by simp, by simp⟩

/-- Witness for C1 at a concrete input: capacity 1, a store holding one
record, and a fresh record with a later timestamp; the old record is
evicted. -/
theorem add_insight_capacity_eviction_witness :
    ([(⟨"a", 0, "alpha", (1 : ℚ), 0⟩ : InsightRecord ℚ)].length ≤ 1) ∧
    ((add_insight 1 [⟨"a", 0, "alpha", (1 : ℚ), 0⟩] ⟨"b", 1, "beta", 1, 0⟩).length ≤ 1 ∧
     ((add_insight 1 [⟨"a", 0, "alpha", (1 : ℚ), 0⟩] ⟨"b", 1, "beta", 1, 0⟩) ++
       (evictedByAdd 1 [⟨"a", 0, "alpha", (1 : ℚ), 0⟩] ⟨"b", 1, "beta", 1, 0⟩)).Perm
       (if is_duplicate_insight [⟨"a", 0, "alpha", (1 : ℚ), 0⟩] (InsightRecord.content ⟨"b", 1, "beta", 1, 0⟩)
        then [⟨"a", 0, "alpha", (1 : ℚ), 0⟩]
        else [⟨"a", 0, "alpha", (1 : ℚ), 0⟩] ++ [⟨"b", 1, "beta", 1, 0⟩]) ∧
     ∀ e ∈ evictedByAdd 1 [⟨"a", 0, "alpha", (1 : ℚ), 0⟩] ⟨"b", 1, "beta", 1, 0⟩,
       ∀ k ∈ add_insight 1 [⟨"a", 0, "alpha", (1 : ℚ), 0⟩] ⟨"b", 1, "beta", 1, 0⟩,
         lexLe (insightKey e) (insightKey k)) :=
  ⟨by decide, add_insight_capacity_eviction 1 _ _ (by decide)⟩

theorem add_insight_of_dup {α : Type} [LinearOrder α] {MAX : ℕ}
    {insights : List (InsightRecord α)} {record : InsightRecord α}
    (h : is_duplicate_insight insights record.content = true) :
    add_insight MAX insights record = insights := by
  simp only [add_insight, h, if_true]

theorem add_insight_of_not_dup_small {α : Type} [LinearOrder α] {MAX : ℕ}
    {insights : List (InsightRecord α)} {record : InsightRecord α}
    (h : ¬ is_duplicate_insight insights record.content = true)
    (hlen : ¬ MAX < (insights ++ [record]).length) :
    add_insight MAX insights record = insights ++ [record] := by
  simp only [add_insight, h, hlen, if_false, Bool.false_eq_true]

theorem add_insight_of_not_dup_big {α : Type} [LinearOrder α] {MAX : ℕ}
    {insights : List (InsightRecord α)} {record : InsightRecord α}
    (h : ¬ is_duplicate_insight insights record.content = true)
    (hlen : MAX < (insights ++ [record]).length) :
    add_insight MAX insights record =
      (sortDescByKey (insights ++ [record])).take MAX := by
  simp only [add_insight, h, hlen, if_false, if_true, Bool.false_eq_true]

theorem add_insight_length_of_overflow {α : Type} [LinearOrder α] {MAX : ℕ}
    {insights : List (InsightRecord α)} {record : InsightRecord α}
    (h : ¬ is_duplicate_insight insights record.content = true)
    (hlen : MAX < (insights ++ [record]).length) :
    (add_insight MAX insights record).length = MAX := by
  rw [add_insight_of_not_dup_big h hlen, List.length_take,
    (sortDescByKey_perm (insights ++ [record])).length_eq]
  exact Nat.min_eq_left (Nat.le_of_lt hlen)

theorem calculate_similarity_self (s : String) (h : wordSet s ≠ ∅) :
    calculate_similarity s s = 1 := by
  have hs : ¬ (s = "" ∨ s = "") := by
    rintro (he | he) <;>
      · apply h
        rw [he]
        decide
  have hw : ¬ (wordSet s = ∅ ∨ wordSet s = ∅) := by
    rintro (he | he) <;> exact h he
  have hcard : ((wordSet s).card : ℚ) ≠ 0 := by
    rw [Nat.cast_ne_zero, ← Nat.pos_iff_ne_zero, Finset.card_pos,
      Finset.nonempty_iff_ne_empty]
    exact h
  simp only [calculate_similarity, hs, hw, if_false, Finset.inter_self,
    Finset.union_self]
  rw [if_neg (by simpa [Finset.eq_empty_iff_forall_not_mem] using hw)]
  · exact div_self hcard

/-- C8: inserting the same insight content twice leaves the insight count
unchanged after the second insert (the duplicate is dropped, or — when the
first copy was itself evicted by capacity — the store stays at capacity);
and inserting an insight whose word-set Jaccard similarity to an
already-stored insight exceeds `0.9` leaves the store unchanged.
The word set of a stored content string is nonempty because contents are
`str(...)` renderings of Python dicts. -/
theorem dedup_idempotence {α : Type} [LinearOrder α] (MAX : ℕ)
    (insights : List (InsightRecord α)) (r1 r2 : InsightRecord α) :
    (r1.content = r2.content → wordSet r1.content ≠ ∅ →
      (add_insight MAX (add_insight MAX insights r1) r2).length =
        (add_insight MAX insights r1).length) ∧
    ((∃ e ∈ insights, (9 : ℚ)/10 < calculate_similarity e.content r2.content) →
      add_insight MAX insights r2 = insights) := by
  constructor
  · intro hc hw
    have hsim : (9 : ℚ)/10 < calculate_similarity r1.content r2.content := by
      rw [← hc, calculate_similarity_self _ hw]
      norm_num
    by_cases hdup1 : is_duplicate_insight insights r1.content = true
    · rw [add_insight_of_dup hdup1]
      have hdup2 : is_duplicate_insight insights r2.content = true := by
        rw [← hc]
        exact hdup1
      rw [add_insight_of_dup hdup2]
    · by_cases hover : MAX < (insights ++ [r1]).length
      · have hlen1 : (add_insight MAX insights r1).length = MAX :=
          add_insight_length_of_overflow hdup1 hover
        by_cases hdup2 :
            is_duplicate_insight (add_insight MAX insights r1) r2.content = true
        · rw [add_insight_of_dup hdup2]
        · have hover2 : MAX < ((add_insight MAX insights r1) ++ [r2]).length := by
            rw [List.length_append, hlen1]
            simp
          rw [add_insight_length_of_overflow hdup2 hover2, hlen1]
      · have h1 : add_insight MAX insights r1 = insights ++ [r1] :=
          add_insight_of_not_dup_small hdup1 hover
        have hdup2 : is_duplicate_insight (insights ++ [r1]) r2.content = true := by
          unfold is_duplicate_insight
          rw [List.any_eq_true]
          exact ⟨r1, by simp, decide_eq_true hsim⟩
        rw [h1, add_insight_of_dup hdup2]
  · rintro ⟨e, he, hsim⟩
    apply add_insight_of_dup
    unfold is_duplicate_insight
    rw [List.any_eq_true]
    exact ⟨e, he, decide_eq_true hsim⟩

/-- Witness for C8: inserting content `"x y"` twice into a store already
holding a record, and inserting a record similar to a stored one, both
leave the count unchanged. -/
theorem dedup_idempotence_witness :
    ((⟨"a", 1, "x y", (1 : ℚ), 0⟩ : InsightRecord ℚ).content =
        (⟨"b", 2, "x y", (1 : ℚ), 0⟩ : InsightRecord ℚ).content ∧
      wordSet (InsightRecord.content (⟨"a", 1, "x y", (1 : ℚ), 0⟩ : InsightRecord ℚ)) ≠ ∅) ∧
    (add_insight 5 (add_insight 5 [(⟨"e", 0, "x y", (1 : ℚ), 0⟩ : InsightRecord ℚ)]
        ⟨"a", 1, "x y", 1, 0⟩) ⟨"b", 2, "x y", 1, 0⟩).length =
      (add_insight 5 [(⟨"e", 0, "x y", (1 : ℚ), 0⟩ : InsightRecord ℚ)]
        ⟨"a", 1, "x y", 1, 0⟩).length ∧
    add_insight 5 [(⟨"e", 0, "x y", (1 : ℚ), 0⟩ : InsightRecord ℚ)] ⟨"b", 2, "x y", 1, 0⟩ =
      [⟨"e", 0, "x y", (1 : ℚ), 0⟩] :=
  ⟨⟨rfl, by decide⟩,
   (dedup_idempotence 5 [⟨"e", 0, "x y", 1, 0⟩] ⟨"a", 1, "x y", 1, 0⟩
       ⟨"b", 2, "x y", 1, 0⟩).1 rfl (by decide),
   (dedup_idempotence 5 [⟨"e", 0, "x y", 1, 0⟩] ⟨"a", 1, "x y", 1, 0⟩
       ⟨"b", 2, "x y", 1, 0⟩).2
     ⟨⟨"e", 0, "x y", 1, 0⟩, by simp, by
        show (9 : ℚ)/10 < calculate_similarity "x y" "x y"
        rw [calculate_similarity_self "x y" (by decide)]
        norm_num⟩⟩

/-! ## cognition_base: relevance decay and retrieval -/

/-- In the running system relevance scores are real numbers produced by
`0.95 ** (days_old / 7) * (1 + usage_count * 0.1)`. -/
abbrev Insight := InsightRecord ℝ

/-- `age_factor = 0.95 ** (days_old / 7)` (`cognition_base.py` line 131);
real exponentiation, `days_old` from `timedelta.days`. -/
noncomputable def age_factor (daysOld : ℤ) : ℝ :=
  (0.95 : ℝ) ^ ((daysOld : ℝ) / 7)

/-- `usage_factor = 1 + usage_count * 0.1` (`cognition_base.py` line 134). -/
noncomputable def usage_factor (usageCount : ℕ) : ℝ :=
  1 + (usageCount : ℝ) * 0.1

/-- One step of `cognition_base._update_relevance_scores`: overwrite the
relevance score with `age_factor * usage_factor`. -/
noncomputable def updated_insight (nowDay : ℕ) (i : Insight) : Insight :=
  { i with relevanceScore :=
      age_factor ((nowDay : ℤ) - (i.timestamp : ℤ)) * usage_factor i.usageCount }

/-- `cognition_base._update_relevance_scores` (lines 125-136). -/
noncomputable def update_relevance_scores (nowDay : ℕ) (l : List Insight) :
    List Insight :=
  l.map (updated_insight nowDay)

/-- C9: after a relevance-score update, of two stored insights with equal
`usage_count`, the one with the older timestamp has relevance score at most
the newer one's, for any evaluation day at or after both insertions. -/
theorem decay_monotonicity (nowDay : ℕ) (l : List Insight) (a b : Insight)
    (ha : a ∈ l) (hb : b ∈ l) (hu : a.usageCount = b.usageCount)
    (hts : a.timestamp ≤ b.timestamp) (hnow : b.timestamp ≤ nowDay) :
    updated_insight nowDay a ∈ update_relevance_scores nowDay l ∧
    updated_insight nowDay b ∈ update_relevance_scores nowDay l ∧
    (updated_insight nowDay a).relevanceScore ≤
      (updated_insight nowDay b).relevanceScore := by
  refine ⟨List.mem_map_of_mem _ ha, List.mem_map_of_mem _ hb, ?_⟩
  show age_factor ((nowDay : ℤ) - (a.timestamp : ℤ)) * usage_factor a.usageCount ≤
    age_factor ((nowDay : ℤ) - (b.timestamp : ℤ)) * usage_factor b.usageCount
  rw [hu]
  apply mul_le_mul_of_nonneg_right
  · show (0.95 : ℝ) ^ ((((nowDay : ℤ) - (a.timestamp : ℤ) : ℤ) : ℝ) / 7) ≤
      (0.95 : ℝ) ^ ((((nowDay : ℤ) - (b.timestamp : ℤ) : ℤ) : ℝ) / 7)
    apply Real.rpow_le_rpow_of_exponent_ge (by norm_num) (by norm_num)
    have h : (a.timestamp : ℝ) ≤ (b.timestamp : ℝ) := by exact_mod_cast hts
    push_cast
    linarith
  · show (0 : ℝ) ≤ 1 + (b.usageCount : ℝ) * 0.1
    positivity

/-- Witness for C9 at a concrete input: a single stored insight compared
with itself on day 3. -/
theorem decay_monotonicity_witness :
    updated_insight 3 (⟨"a", 1, "c", (1 : ℝ), 0⟩ : Insight) ∈
      update_relevance_scores 3 [(⟨"a", 1, "c", (1 : ℝ), 0⟩ : Insight)] ∧
    updated_insight 3 (⟨"a", 1, "c", (1 : ℝ), 0⟩ : Insight) ∈
      update_relevance_scores 3 [(⟨"a", 1, "c", (1 : ℝ), 0⟩ : Insight)] ∧
    (updated_insight 3 (⟨"a", 1, "c", (1 : ℝ), 0⟩ : Insight)).relevanceScore ≤
      (updated_insight 3 (⟨"a", 1, "c", (1 : ℝ), 0⟩ : Insight)).relevanceScore :=
  decay_monotonicity 3 [⟨"a", 1, "c", 1, 0⟩] ⟨"a", 1, "c", 1, 0⟩ ⟨"a", 1, "c", 1, 0⟩
    (List.mem_singleton_self _) (List.mem_singleton_self _) rfl (le_refl _)
    (by norm_num)

/-- One returned retrieval entry (`cognition_base.py` lines 108-112):
the content, its similarity to the query, and the record's timestamp. -/
structure ScoredInsight where
  insight : String
  relevance : ℚ
  timestamp : ℕ
deriving Repr, DecidableEq

/-- Python `str.lower()`. -/
def lowerStr (s : String) : String := ⟨s.data.map Char.toLower⟩

/-- The descending relevance order used by
`scored_insights.sort(key=..., reverse=True)`. -/
def scoredDescRel (a b : ScoredInsight) : Prop := b.relevance ≤ a.relevance

instance : DecidableRel scoredDescRel := by
  intro a b
  unfold scoredDescRel
  infer_instance

instance : IsTotal ScoredInsight scoredDescRel :=
  ⟨fun a b => le_total b.relevance a.relevance⟩

instance : IsTrans ScoredInsight scoredDescRel :=
  ⟨fun _ _ _ hab hbc => le_trans hbc hab⟩

/-- `cognition_base.get_relevant_insights` (lines 92-123): score every
insight against the query, collect and usage-bump those above the
threshold, sort the collected entries by relevance descending, recompute
all relevance scores, and return the first `limit` entries.  Returns the
updated store paired with the returned entries. -/
noncomputable def get_relevant_insights (nowDay : ℕ) (threshold : ℚ)
    (query : String) (limit : ℕ) (insights : List Insight) :
    List Insight × List ScoredInsight :=
  if insights = [] then (insights, [])
  else
    let passes : Insight → Bool := fun i =>
      decide (threshold < calculate_similarity (lowerStr query) (lowerStr i.content))
    let scored := (insights.filter passes).map (fun i =>
      (⟨i.content, calculate_similarity (lowerStr query) (lowerStr i.content),
        i.timestamp⟩ : ScoredInsight))
    let bumped := insights.map (fun i =>
      if passes i then { i with usageCount := i.usageCount + 1 } else i)
    (update_relevance_scores nowDay bumped,
      (scored.insertionSort scoredDescRel).take limit)

/-- C5 (amended): `get_relevant_insights` increments `usage_count` by one
for every insight whose similarity to the query exceeds the threshold —
including insights beyond the `limit` cutoff that are not returned — and
leaves all other usage counts unchanged; it recomputes every relevance
score by the decay formula; and it returns at most `limit` entries, sorted
by relevance descending, each with above-threshold similarity. -/
theorem get_relevant_insights_spec (nowDay : ℕ) (threshold : ℚ)
    (query : String) (limit : ℕ) (insights : List Insight) :
    ((get_relevant_insights nowDay threshold query limit insights).1.map
        (fun i => i.usageCount) =
      insights.map (fun i => i.usageCount +
        (if threshold < calculate_similarity (lowerStr query) (lowerStr i.content)
         then 1 else 0))) ∧
    (∀ x ∈ (get_relevant_insights nowDay threshold query limit insights).1,
      x.relevanceScore =
        age_factor ((nowDay : ℤ) - (x.timestamp : ℤ)) * usage_factor x.usageCount) ∧
    (get_relevant_insights nowDay threshold query limit insights).2.length ≤ limit ∧
    List.Sorted scoredDescRel
      (get_relevant_insights nowDay threshold query limit insights).2 ∧
    (∀ s ∈ (get_relevant_insights nowDay threshold query limit insights).2,
      threshold < s.relevance ∧
      s.relevance = calculate_similarity (lowerStr query) (lowerStr s.insight)) := by
  by_cases hnil : insights = []
  · subst hnil
    refine ⟨rfl, ?_, ?_, ?_, ?_⟩ <;> simp [get_relevant_insights]
  · simp only [get_relevant_insights, if_neg hnil]
    refine ⟨?_, ?_, ?_, ?_, ?_⟩
    · rw [update_relevance_scores, List.map_map, List.map_map]
      apply List.map_congr_left
      intro i _
      by_cases hp :
          threshold < calculate_similarity (lowerStr query) (lowerStr i.content)
      · simp [updated_insight, hp]
      · simp [updated_insight, hp]
    · intro x hx
      rw [update_relevance_scores] at hx
      obtain ⟨y, _, rfl⟩ := List.mem_map.mp hx
      simp [updated_insight]
    · exact List.length_take_le _ _
    · exact (List.sorted_insertionSort scoredDescRel _).take
    · intro s hs
      have hs2 := List.mem_of_mem_take hs
      rw [List.mem_insertionSort] at hs2
      obtain ⟨i, hi, rfl⟩ := List.mem_map.mp hs2
      have hpass := (List.mem_filter.mp hi).2
      rw [decide_eq_true_eq] at hpass
      exact ⟨hpass, rfl⟩

/-- Counterexample for C5: with threshold `7/10`, query `"a b c"`, limit 1
and two stored insights both above the threshold, only the first insight
is returned, yet the second insight's `usage_count` is also incremented —
`get_relevant_insights` bumps every above-threshold insight, not only the
returned ones. -/
theorem get_relevant_insights_counterexample :
    ((get_relevant_insights 0 (7/10) "a b c" 1
        [(⟨"i1", 0, "a b c", (1 : ℝ), 0⟩ : Insight),
         ⟨"i2", 0, "a b c d", (1 : ℝ), 0⟩]).2.map (fun s => s.insight) =
      ["a b c"]) ∧
    ((get_relevant_insights 0 (7/10) "a b c" 1
        [(⟨"i1", 0, "a b c", (1 : ℝ), 0⟩ : Insight),
         ⟨"i2", 0, "a b c d", (1 : ℝ), 0⟩]).1.map (fun i => i.usageCount) =
      [1, 1]) := by
  have h1 : calculate_similarity (lowerStr "a b c") (lowerStr "a b c") = 1 := by
    rw [calculate_similarity]
    rw [if_neg (by decide), if_neg (by decide), if_neg (by decide)]
    rw [show (wordSet (lowerStr "a b c") ∩ wordSet (lowerStr "a b c")).card = 3 by decide]
    rw [show (wordSet (lowerStr "a b c") ∪ wordSet (lowerStr "a b c")).card = 3 by decide]
    norm_num
  have h2 : calculate_similarity (lowerStr "a b c") (lowerStr "a b c d") = 3/4 := by
    rw [calculate_similarity]
    rw [if_neg (by decide), if_neg (by decide), if_neg (by decide)]
    rw [show (wordSet (lowerStr "a b c") ∩ wordSet (lowerStr "a b c d")).card = 3 by decide]
    rw [show (wordSet (lowerStr "a b c") ∪ wordSet (lowerStr "a b c d")).card = 4 by decide]
    norm_num
  have hni : ([(⟨"i1", 0, "a b c", (1 : ℝ), 0⟩ : Insight),
      ⟨"i2", 0, "a b c d", (1 : ℝ), 0⟩] : List Insight) ≠ [] := by simp
  constructor
  · norm_num [get_relevant_insights, h1, h2, List.insertionSort, List.orderedInsert,
      scoredDescRel, if_neg hni]
  · norm_num [get_relevant_insights, h1, h2, update_relevance_scores, updated_insight,
      List.insertionSort, List.orderedInsert, scoredDescRel, if_neg hni]

/-! ## JSON values, Python truthiness and `str()` rendering -/

/-- A parsed JSON value (the possible results of `json.loads`). -/
inductive Json where
  | null : Json
  | bool (b : Bool) : Json
  | num (q : ℚ) : Json
  | str (s : String) : Json
  | arr (elems : List Json) : Json
  | obj (fields : List (String × Json)) : Json

/-- Python `dict.get(key)`: the value of the first matching key, else
`None`. -/
def jsonLookup (fields : List (String × Json)) (key : String) : Option Json :=
  match fields with
  | [] => none
  | (k, v) :: rest => if k = key then some v else jsonLookup rest key

/-- Python `bool(x)` on a JSON value. -/
def jsonTruthy : Json → Bool
  | .null => false
  | .bool b => b
  | .num q => decide (q ≠ 0)
  | .str s => decide (s ≠ "")
  | .arr elems => !elems.isEmpty
  | .obj fields => !fields.isEmpty

/-- Python `bool(x)` on an optional JSON value (`None` is falsy). -/
def jsonTruthyOpt : Option Json → Bool
  | none => false
  | some j => jsonTruthy j

mutual
/-- Python `repr()` of a parsed JSON value. -/
def pyRepr : Json → String
  | .null => "None"
  | .bool b => if b then "True" else "False"
  | .num q => toString q
  | .str s => "\x27" ++ s ++ "\x27"
  | .arr elems => "[" ++ pyReprList elems ++ "]"
  | .obj fields => "\x7b" ++ pyReprFields fields ++ "\x7d"

def pyReprList : List Json → String
  | [] => ""
  | [x] => pyRepr x
  | x :: y :: rest => pyRepr x ++ ", " ++ pyReprList (y :: rest)

def pyReprFields : List (String × Json) → String
  | [] => ""
  | [(k, v)] => "\x27" ++ k ++ "\x27: " ++ pyRepr v
  | (k, v) :: p :: rest =>
      "\x27" ++ k ++ "\x27: " ++ pyRepr v ++ ", " ++ pyReprFields (p :: rest)
end

/-- Python `str()` of a parsed JSON value: identical to `repr()` except on
strings, which print without quotes. -/
def pyStr : Json → String
  | .str s => s
  | j => pyRepr j

/-- Prefix test on character lists. -/
def charsPrefix : List Char → List Char → Bool
  | [], _ => true
  | _ :: _, [] => false
  | a :: as, b :: bs => a == b && charsPrefix as bs

/-- Infix test on character lists. -/
def charsInfix (pat : List Char) : List Char → Bool
  | [] => charsPrefix pat []
  | c :: cs => charsPrefix pat (c :: cs) || charsInfix pat cs

/-- Python `pat in s` substring test. -/
def strContains (s pat : String) : Bool := charsInfix pat.data s.data

/-! ## analyst.Analyst: scoring, comparison, failure analysis -/

/-- The metrics mapping attached to an execution result: the keys
`analyst._calculate_score` reads, each possibly absent. -/
structure Metrics where
  execution_time : Option ℚ
  memory_mb : Option ℚ
deriving Repr, DecidableEq

/-- `metrics.get(key, float('inf'))`: an absent key reads as `+∞`. -/
def getMetric : Option ℚ → WithTop ℚ
  | none => ⊤
  | some q => (q : WithTop ℚ)

/-- An execution result as consumed by the analyst: success flag, parsed
output, error text and metrics.  (`result["error"]` is modelled as the
error string; the classification code lowercases it directly.) -/
structure AnalystResult where
  success : Bool
  output : Option Json
  error : String
  metrics : Metrics

/-- A hypothesis record (`researcher.py`); the analyst reads
`expected_outcome` and `approach`. -/
structure Hypothesis where
  source : String
  description : String
  approach : String
  code_sketch : String
  expected_outcome : String
  metricsNames : List String
deriving Repr, DecidableEq

/-- The fixed keyword set of `analyst._check_expected_outcomes`. -/
def outcomeKeywords : List String :=
  ["improve", "better", "faster", "efficient", "pattern", "found"]

/-- `analyst._check_expected_outcomes` (lines 229-238): some keyword occurs
in both the lowercased expected outcome and the lowercased stringified
output (`result.get("output", "")`). -/
def check_expected_outcomes (result : AnalystResult) (hyp : Hypothesis) : Bool :=
  let expected := lowerStr hyp.expected_outcome
  let output := lowerStr (match result.output with
    | none => ""
    | some j => pyStr j)
  outcomeKeywords.any (fun kw => strContains expected kw && strContains output kw)

/-- `analyst._is_novel_result` (lines 240-251): the output
(`result.get("output", {})`) is a dict with a key outside
`["result", "time", "data"]`. -/
def is_novel_result (result : AnalystResult) : Bool :=
  match result.output.getD (Json.obj []) with
  | Json.obj fields =>
      decide ((fields.filter
        (fun kv => !(["result", "time", "data"].contains kv.1))).length > 0)
  | _ => false

/-- `analyst._calculate_score` (lines 52-83): base 1.0, speed bonus
`+0.5 / −0.5`, memory bonus `+0.3 / −0.3`, `+1.0` for met expected
outcomes, `+0.5` for novelty, floored at 0. -/
def calculate_score (result : AnalystResult) (hyp : Hypothesis) : ℚ :=
  let score0 : ℚ := 0
  let score1 := score0 + 1
  let exec_time := getMetric result.metrics.execution_time
  let score2 :=
    if exec_time < ((1 : ℚ) : WithTop ℚ) then score1 + 1/2
    else if (((10 : ℚ) : WithTop ℚ)) < exec_time then score1 - 1/2
    else score1
  let memory_mb := getMetric result.metrics.memory_mb
  let score3 :=
    if memory_mb < ((100 : ℚ) : WithTop ℚ) then score2 + 3/10
    else if (((500 : ℚ) : WithTop ℚ)) < memory_mb then score2 - 3/10
    else score2
  let score4 := if check_expected_outcomes result hyp then score3 + 1 else score3
  let score5 := if is_novel_result result then score4 + 1/2 else score4
  max 0 score5

/-- A result with given metrics and otherwise neutral fields, used to
exercise the scoring boundaries. -/
def mkMetricsResult (t m : Option ℚ) : AnalystResult :=
  { success := true, output := none, error := "", metrics := ⟨t, m⟩ }

/-- A blank hypothesis for boundary checks. -/
def blankHyp : Hypothesis :=
  { source := "template", description := "", approach := "",
    code_sketch := "", expected_outcome := "", metricsNames := [] }

/-- C3: for a successful result the score is the base 1.0 plus the speed
bonus (`+0.5` iff time `< 1.0`, `−0.5` iff time `> 10.0`), the memory bonus
(`+0.3` iff memory `< 100`, `−0.3` iff memory `> 500`), the expected-outcome
and novelty bonuses, floored at zero; at time exactly `1.0` and memory
exactly `500` neither bonus nor penalty applies, at `0.999` the `+0.5`
applies, at `500.001` the `−0.3` applies, and the score is never negative. -/
theorem calculate_score_spec (r : AnalystResult) (h : Hypothesis) :
    calculate_score r h =
      max 0 (1 +
        (if getMetric r.metrics.execution_time < ((1 : ℚ) : WithTop ℚ) then (1 : ℚ)/2
         else if ((10 : ℚ) : WithTop ℚ) < getMetric r.metrics.execution_time then -(1/2)
         else 0) +
        (if getMetric r.metrics.memory_mb < ((100 : ℚ) : WithTop ℚ) then (3 : ℚ)/10
         else if ((500 : ℚ) : WithTop ℚ) < getMetric r.metrics.memory_mb then -(3/10)
         else 0) +
        (if check_expected_outcomes r h then (1 : ℚ) else 0) +
        (if is_novel_result r then (1 : ℚ)/2 else 0)) ∧
    0 ≤ calculate_score r h ∧
    calculate_score (mkMetricsResult (some 1) (some 200)) blankHyp = 1 ∧
    calculate_score (mkMetricsResult (some (999/1000)) (some 200)) blankHyp = 3/2 ∧
    calculate_score (mkMetricsResult (some 2) (some 500)) blankHyp = 1 ∧
    calculate_score (mkMetricsResult (some 2) (some (500001/1000))) blankHyp = 7/10 := by
  have hb : ∀ t m : Option ℚ,
      check_expected_outcomes (⟨true, none, "", ⟨t, m⟩⟩ : AnalystResult) blankHyp = false :=
    fun _ _ => rfl
  have hn : ∀ t m : Option ℚ,
      is_novel_result (⟨true, none, "", ⟨t, m⟩⟩ : AnalystResult) = false :=
    fun _ _ => rfl
  refine ⟨?_, ?_, ?_, ?_, ?_, ?_⟩
  · simp only [calculate_score]
    split_ifs <;> norm_num
  · simp only [calculate_score]
    exact le_max_left 0 _
  · simp only [calculate_score, mkMetricsResult, getMetric, WithTop.coe_lt_coe,
      hb, hn, Bool.false_eq_true, if_false]
    norm_num
  · simp only [calculate_score, mkMetricsResult, getMetric, WithTop.coe_lt_coe,
      hb, hn, Bool.false_eq_true, if_false]
    norm_num
  · simp only [calculate_score, mkMetricsResult, getMetric, WithTop.coe_lt_coe,
      hb, hn, Bool.false_eq_true, if_false]
    norm_num
  · simp only [calculate_score, mkMetricsResult, getMetric, WithTop.coe_lt_coe,
      hb, hn, Bool.false_eq_true, if_false]
    norm_num

/-- C10: a successful result whose metrics carry neither `execution_time`
nor `memory_mb` defaults both to `+∞`, so the slow-execution penalty and
the high-memory penalty both apply: the score is
`max 0 (0.2 + outcome bonus + novelty bonus)`. -/
theorem missing_metrics_worst_case (r : AnalystResult) (h : Hypothesis)
    (hs : r.success = true)
    (ht : r.metrics.execution_time = none) (hm : r.metrics.memory_mb = none) :
    calculate_score r h =
      max 0 ((1 : ℚ)/5 + (if check_expected_outcomes r h then (1 : ℚ) else 0) +
        (if is_novel_result r then (1 : ℚ)/2 else 0)) := by
  simp only [calculate_score, ht, hm, getMetric, not_top_lt, if_false,
    WithTop.coe_lt_top, if_true]
  split_ifs <;> norm_num

/-- Witness for C10: the concrete metrics-free successful result. -/
theorem missing_metrics_worst_case_witness :
    (mkMetricsResult none none).success = true ∧
    (mkMetricsResult none none).metrics.execution_time = none ∧
    (mkMetricsResult none none).metrics.memory_mb = none ∧
    calculate_score (mkMetricsResult none none) blankHyp =
      max 0 ((1 : ℚ)/5 +
        (if check_expected_outcomes (mkMetricsResult none none) blankHyp
         then (1 : ℚ) else 0) +
        (if is_novel_result (mkMetricsResult none none) then (1 : ℚ)/2 else 0)) :=
  ⟨rfl, rfl, rfl, missing_metrics_worst_case (mkMetricsResult none none) blankHyp rfl rfl rfl⟩

/-- The comparison record built by `analyst._compare_with_recent`
(lines 88-94). -/
structure Comparison where
  better_than : ℕ
  worse_than : ℕ
  similar_to : ℕ
  performance_rank : ℕ
  is_improvement : Bool
deriving Repr, DecidableEq

/-- A recorded experiment as read back by the analyst and the researcher:
its hypothesis and its execution result. -/
structure Experiment where
  hypothesis : Hypothesis
  result : AnalystResult

/-- The execution times the comparison loop collects: times of successful
recent experiments whose `execution_time` metric is present (an absent key
reads as `inf` and is skipped by the `!= inf` guard). -/
def comparable_times (recents : List Experiment) : List ℚ :=
  recents.filterMap (fun exp =>
    if exp.result.success then exp.result.metrics.execution_time else none)

/-- One iteration of the comparison loop (`analyst.py` lines 105-121). -/
def compareStep (threshold : ℚ) (current_time : WithTop ℚ)
    (acc : Comparison × List ℚ) (exp : Experiment) : Comparison × List ℚ :=
  if exp.result.success = false then acc
  else
    match exp.result.metrics.execution_time with
    | none => acc
    | some exp_time =>
      let acc2 := acc.2 ++ [exp_time]
      if current_time < ((exp_time * (1 - threshold) : ℚ) : WithTop ℚ) then
        ({ acc.1 with better_than := acc.1.better_than + 1 }, acc2)
      else if ((exp_time * (1 + threshold) : ℚ) : WithTop ℚ) < current_time then
        ({ acc.1 with worse_than := acc.1.worse_than + 1 }, acc2)
      else
        ({ acc.1 with similar_to := acc.1.similar_to + 1 }, acc2)

/-- `analyst._compare_with_recent` (lines 85-130): count better / worse /
similar against each successful recent time, then rank the current time
within the ascending sort of all comparable times including itself;
`is_improvement` iff the rank is in the top half. -/
def compare_with_recent (threshold : ℚ) (result : AnalystResult)
    (recents : List Experiment) : Comparison :=
  let comparison : Comparison := ⟨0, 0, 0, 0, false⟩
  if recents.isEmpty then comparison
  else
    let current_time := getMetric result.metrics.execution_time
    let folded := recents.foldl (compareStep threshold current_time) (comparison, [])
    if folded.2 = [] then folded.1
    else
      match result.metrics.execution_time with
      | none => folded.1
      | some c =>
        let all := (folded.2 ++ [c]).insertionSort (fun a b => a ≤ b)
        let rank := all.indexOf c + 1
        { folded.1 with
          performance_rank := rank
          is_improvement := decide (rank ≤ all.length / 2) }

theorem foldl_compareStep_times (threshold : ℚ) (ct : WithTop ℚ)
    (recents : List Experiment) (acc : Comparison × List ℚ) :
    (recents.foldl (compareStep threshold ct) acc).2 =
      acc.2 ++ comparable_times recents := by
  induction recents generalizing acc with
  | nil => simp [comparable_times]
  | cons e rest ih =>
    rw [List.foldl_cons, ih]
    simp only [comparable_times, List.filterMap_cons]
    by_cases hs : e.result.success = true
    · rcases ht : e.result.metrics.execution_time with _ | t
      · simp [compareStep, hs, ht, comparable_times]
      · simp only [compareStep, hs, ht, Bool.true_eq_false, if_false]
        split_ifs <;> simp [comparable_times]
    · have hs2 : e.result.success = false := by
        simpa using hs
      simp [compareStep, hs2, comparable_times]

theorem sorted_indexOf_countP (l : List ℚ) (c : ℚ)
    (hs : List.Sorted (fun a b => a ≤ b) l) (hc : c ∈ l) :
    l.indexOf c = l.countP (fun t => decide (t < c)) := by
  induction l with
  | nil => cases hc
  | cons a rest ih =>
    rw [List.sorted_cons] at hs
    by_cases hac : a = c
    · subst hac
      rw [List.indexOf_cons_self, List.countP_cons]
      have h1 : rest.countP (fun t => decide (t < a)) = 0 := by
        rw [List.countP_eq_zero]
        intro t ht
        simp only [decide_eq_true_eq]
        exact not_lt.mpr (hs.1 t ht)
      simp [h1]
    · rw [List.indexOf_cons_ne _ hac]
      have hcr : c ∈ rest := by
        rcases List.mem_cons.mp hc with h | h
        · exact absurd h.symm hac
        · exact h
      rw [ih hs.2 hcr, List.countP_cons]
      have ha : a < c := lt_of_le_of_ne (hs.1 c hcr) hac
      simp [ha, Nat.succ_eq_add_one]

/-- The concrete current result of the spec's rank example: execution time
`1.0`. -/
def exResult : AnalystResult := ⟨true, none, "", ⟨some 1, none⟩⟩

/-- A successful recent experiment with the given execution time. -/
def exExp (t : ℚ) : Experiment := ⟨blankHyp, ⟨true, none, "", ⟨some t, none⟩⟩⟩

/-- The spec's rank example: recent successful times `[2.0, 3.0, 5.0]`. -/
def exRecents : List Experiment := [exExp 2, exExp 3, exExp 5]

/-- C4: when the current result has a present execution time and at least
one comparable recent time exists, `performance_rank` is one plus the
number of comparable times strictly below the current time (the 1-based
position of the current time in the ascending sort of all comparable times
including itself), and `is_improvement` holds iff the rank is at most
`⌊N/2⌋` with `N` counting the current time; on the spec's example —
times `[2, 3, 5]`, threshold `5%`, current time `1` — the result is
`better_than = 3`, `performance_rank = 1`, `is_improvement = true`. -/
theorem compare_with_recent_spec (threshold : ℚ) (r : AnalystResult)
    (recents : List Experiment) (c : ℚ)
    (hc : r.metrics.execution_time = some c)
    (hne : comparable_times recents ≠ []) :
    ((compare_with_recent threshold r recents).performance_rank =
      (comparable_times recents).countP (fun t => decide (t < c)) + 1) ∧
    ((compare_with_recent threshold r recents).is_improvement = true ↔
      (compare_with_recent threshold r recents).performance_rank ≤
        ((comparable_times recents).length + 1) / 2) ∧
    compare_with_recent (1/20) exResult exRecents = ⟨3, 0, 0, 1, true⟩ := by
  have hrne : recents.isEmpty = false := by
    cases recents with
    | nil => simp [comparable_times] at hne
    | cons e rest => rfl
  have hT := foldl_compareStep_times threshold (getMetric r.metrics.execution_time)
    recents (⟨0, 0, 0, 0, false⟩, [])
  rw [List.nil_append] at hT
  have hsorted := List.sorted_insertionSort (fun a b : ℚ => a ≤ b)
    (comparable_times recents ++ [c])
  have hmem : c ∈ (comparable_times recents ++ [c]).insertionSort
      (fun a b : ℚ => a ≤ b) := by
    rw [List.mem_insertionSort]
    simp
  have hidx := sorted_indexOf_countP _ c hsorted hmem
  have hcount : ((comparable_times recents ++ [c]).insertionSort
        (fun a b : ℚ => a ≤ b)).countP (fun t => decide (t < c)) =
      (comparable_times recents).countP (fun t => decide (t < c)) := by
    rw [(List.perm_insertionSort _ _).countP_eq]
    rw [List.countP_append]
    simp
  have hlen : ((comparable_times recents ++ [c]).insertionSort
        (fun a b : ℚ => a ≤ b)).length = (comparable_times recents).length + 1 := by
    rw [(List.perm_insertionSort _ _).length_eq, List.length_append]
    rfl
  have hconc : compare_with_recent (1/20) exResult exRecents = ⟨3, 0, 0, 1, true⟩ := by
    norm_num [compare_with_recent, exResult, exRecents, exExp, blankHyp, compareStep,
      getMetric, WithTop.coe_lt_coe, List.insertionSort, List.orderedInsert,
      List.indexOf_cons_self, comparable_times]
    exact List.cons_ne_nil _ _
  rw [hc] at hT
  simp only [compare_with_recent, hrne, Bool.false_eq_true, if_false, hc, hT, hne]
  refine ⟨?_, ?_, hconc⟩
  · simp only [hidx, hcount]
  · simp only [hidx, hcount, hlen, decide_eq_true_eq]

/-- Witness for C4 at the spec's example input. -/
theorem compare_with_recent_spec_witness :
    ((compare_with_recent (1/20) exResult exRecents).performance_rank =
      (comparable_times exRecents).countP (fun t => decide (t < (1 : ℚ))) + 1) ∧
    (((compare_with_recent (1/20) exResult exRecents).is_improvement = true) ↔
      (compare_with_recent (1/20) exResult exRecents).performance_rank ≤
        ((comparable_times exRecents).length + 1) / 2) ∧
    compare_with_recent (1/20) exResult exRecents = ⟨3, 0, 0, 1, true⟩ :=
  compare_with_recent_spec (1/20) exResult exRecents 1 rfl
    (by simp [comparable_times, exRecents, exExp])

/-- The failure-analysis triple built by `analyst._analyze_failure`. -/
structure FailureAnalysis where
  error_type : String
  likely_cause : String
  suggestions : List String
deriving Repr, DecidableEq

/-- `analyst._analyze_failure` (lines 253-289): case-insensitive substring
match of the error text against `timeout`, then `memory`, then
`syntax`/`name`, with a fixed triple per class and an `unknown` default. -/
def analyze_failure (result : AnalystResult) (hyp : Hypothesis) : FailureAnalysis :=
  let error := lowerStr result.error
  if strContains error "timeout" then
    ⟨"timeout", "Algorithm complexity too high",
     ["Reduce problem size", "Optimize algorithm", "Increase timeout limit"]⟩
  else if strContains error "memory" then
    ⟨"memory", "Excessive memory usage",
     ["Use memory-efficient data structures", "Process data in chunks",
      "Reduce data size"]⟩
  else if strContains error "syntax" || strContains error "name" then
    ⟨"code_error", "Code generation issue",
     ["Improve code generation prompts", "Add better error handling",
      "Validate generated code"]⟩
  else ⟨"unknown", "", []⟩

/-- The analysis record built by `analyst.analyze_result` (lines 19-50).
The oracle-driven `insights` and `recommendations` fields are outside the
pure fragment and are not modelled; the initial empty `comparison` dict of
the failure branch is modelled as the all-zero comparison. -/
structure Analysis where
  success : Bool
  score : ℚ
  comparison : Comparison
  failure_analysis : Option FailureAnalysis

/-- `analyst.analyze_result`: score and compare on success, classify the
failure otherwise. -/
def analyze_result (threshold : ℚ) (result : AnalystResult) (hyp : Hypothesis)
    (recents : List Experiment) : Analysis :=
  if result.success then
    { success := result.success
      score := calculate_score result hyp
      comparison := compare_with_recent threshold result recents
      failure_analysis := none }
  else
    { success := result.success
      score := 0
      comparison := ⟨0, 0, 0, 0, false⟩
      failure_analysis := some (analyze_failure result hyp) }

/-- C7: the analysis carries a `failure_analysis` iff the result failed,
and the failure triple is selected by case-insensitive substring matching
in the priority order `timeout`, `memory`, `syntax|name`, defaulting to
`unknown` with empty cause and suggestions. -/
theorem analyze_result_failure_classification (threshold : ℚ) (r : AnalystResult)
    (h : Hypothesis) (recents : List Experiment) :
    ((analyze_result threshold r h recents).failure_analysis.isSome = true ↔
      r.success = false) ∧
    ((analyze_result threshold r h recents).failure_analysis =
      if r.success = true then none else some (analyze_failure r h)) ∧
    (strContains (lowerStr r.error) "timeout" = true →
      analyze_failure r h = ⟨"timeout", "Algorithm complexity too high",
        ["Reduce problem size", "Optimize algorithm", "Increase timeout limit"]⟩) ∧
    (strContains (lowerStr r.error) "timeout" = false →
     strContains (lowerStr r.error) "memory" = true →
      analyze_failure r h = ⟨"memory", "Excessive memory usage",
        ["Use memory-efficient data structures", "Process data in chunks",
         "Reduce data size"]⟩) ∧
    (strContains (lowerStr r.error) "timeout" = false →
     strContains (lowerStr r.error) "memory" = false →
     (strContains (lowerStr r.error) "syntax" || strContains (lowerStr r.error) "name") = true →
      analyze_failure r h = ⟨"code_error", "Code generation issue",
        ["Improve code generation prompts", "Add better error handling",
         "Validate generated code"]⟩) ∧
    (strContains (lowerStr r.error) "timeout" = false →
     strContains (lowerStr r.error) "memory" = false →
     strContains (lowerStr r.error) "syntax" = false →
     strContains (lowerStr r.error) "name" = false →
      analyze_failure r h = ⟨"unknown", "", []⟩) := by
  refine ⟨?_, ?_, ?_, ?_, ?_, ?_⟩
  · cases hsucc : r.success <;> simp [analyze_result, hsucc]
  · cases hsucc : r.success <;> simp [analyze_result, hsucc]
  · intro h1
    simp [analyze_failure, h1]
  · intro h1 h2
    simp [analyze_failure, h1, h2]
  · intro h1 h2 h3
    simp [analyze_failure, h1, h2, h3]
  · intro h1 h2 h3 h4
    simp [analyze_failure, h1, h2, h3, h4]

/-- Witness for C7: a failed result whose error text mentions both a
timeout and memory is classified as `timeout` (the priority case), and a
result with an unmatched error is classified `unknown`. -/
theorem analyze_result_failure_classification_witness :
    analyze_failure (⟨false, none, "Execution timeout (30s) after memory pressure",
        ⟨none, none⟩⟩ : AnalystResult) blankHyp =
      ⟨"timeout", "Algorithm complexity too high",
        ["Reduce problem size", "Optimize algorithm", "Increase timeout limit"]⟩ ∧
    analyze_failure (⟨false, none, "ZeroDivisionError: division by zero",
        ⟨none, none⟩⟩ : AnalystResult) blankHyp = ⟨"unknown", "", []⟩ ∧
    ((analyze_result 0 (⟨false, none, "ZeroDivisionError: division by zero",
        ⟨none, none⟩⟩ : AnalystResult) blankHyp []).failure_analysis.isSome = true ↔
      (⟨false, none, "ZeroDivisionError: division by zero",
        ⟨none, none⟩⟩ : AnalystResult).success = false) :=
  ⟨(analyze_result_failure_classification 0
      ⟨false, none, "Execution timeout (30s) after memory pressure", ⟨none, none⟩⟩
      blankHyp []).2.2.1 (by decide),
   (analyze_result_failure_classification 0
      ⟨false, none, "ZeroDivisionError: division by zero", ⟨none, none⟩⟩
      blankHyp []).2.2.2.2.2 (by decide) (by decide) (by decide) (by decide),
   (analyze_result_failure_classification 0
      ⟨false, none, "ZeroDivisionError: division by zero", ⟨none, none⟩⟩
      blankHyp []).1⟩

/-! ## engineer.Engineer: parsing the subprocess stdout -/

/-- `stdout.strip().split('\n')[-1]`: the last line of the stripped
standard output. -/
def lastLine (s : String) : String := (s.trim.splitOn "\n").getLastD ""

/-- The slice of the sandbox result built by the stdout-parsing block of
`engineer._execute_windows` (lines 291-300): the success flag, the parsed
output and the parsed error (both `None` when absent). -/
structure ExecOutcome where
  success : Bool
  output : Option Json
  error : Option Json

/-- The stdout-parsing block of `engineer._execute_windows` (lines
291-300), starting from the initial result (`success=False`,
`output=None`, `error=None`): parse the last stdout line with the JSON
parser `parse` (the `json.loads` oracle); a parsed dict drives output /
error / success; any parse failure — or a parsed non-dict, whose
`.get` raises — falls back to the raw stdout with `success=True`. -/
def parse_stdout_block (parse : String → Option Json) (stdout : String) :
    ExecOutcome :=
  if stdout = "" then ⟨false, none, none⟩
  else
    match parse (lastLine stdout) with
    | some (Json.obj fields) =>
        ⟨!(jsonTruthyOpt (jsonLookup fields "error")),
         jsonLookup fields "output",
         jsonLookup fields "error"⟩
    | some _ => ⟨true, some (Json.str stdout), none⟩
    | none => ⟨true, some (Json.str stdout), none⟩

/-- C2 (amended): for nonempty stdout the sandbox parses only the final
stripped line; when that line parses to a JSON object the success flag is
`not bool(error)` — true iff the `error` field is absent **or falsy**
(e.g. `null`) — and when parsing fails the raw stdout becomes the output
with `success = true`. -/
theorem parse_stdout_spec (parse : String → Option Json) (stdout : String)
    (hne : stdout ≠ "") :
    (∀ parse2 : String → Option Json,
      parse2 (lastLine stdout) = parse (lastLine stdout) →
      parse_stdout_block parse2 stdout = parse_stdout_block parse stdout) ∧
    (∀ fields, parse (lastLine stdout) = some (Json.obj fields) →
      (parse_stdout_block parse stdout).success =
          !(jsonTruthyOpt (jsonLookup fields "error")) ∧
      (parse_stdout_block parse stdout).output = jsonLookup fields "output" ∧
      (parse_stdout_block parse stdout).error = jsonLookup fields "error" ∧
      ((parse_stdout_block parse stdout).success = true ↔
        (jsonLookup fields "error" = none ∨
          ∃ j, jsonLookup fields "error" = some j ∧ jsonTruthy j = false))) ∧
    (parse (lastLine stdout) = none →
      parse_stdout_block parse stdout = ⟨true, some (Json.str stdout), none⟩) := by
  refine ⟨?_, ?_, ?_⟩
  · intro parse2 heq
    unfold parse_stdout_block
    rw [if_neg hne, if_neg hne, heq]
  · intro fields hp
    unfold parse_stdout_block
    rw [if_neg hne, hp]
    refine ⟨rfl, rfl, rfl, ?_⟩
    rcases hl : jsonLookup fields "error" with _ | j
    · simp [jsonTruthyOpt, hl]
    · simp only [jsonTruthyOpt, hl, Bool.not_eq_true']
      constructor
      · intro ht
        exact Or.inr ⟨j, rfl, ht⟩
      · rintro (hnone | ⟨j2, hj2, ht⟩)
        · exact absurd hnone (by simp)
        · rw [Option.some.injEq] at hj2
          rw [hj2]
          exact ht
  · intro hp
    unfold parse_stdout_block
    rw [if_neg hne, hp]

/-- Witness for C2 applied to a parse oracle returning an empty JSON
object on the nonempty stdout `"x"`. -/
theorem parse_stdout_spec_witness :
    (parse_stdout_block (fun _ => some (Json.obj [])) "x").success =
        !(jsonTruthyOpt (jsonLookup [] "error")) ∧
    (parse_stdout_block (fun _ => some (Json.obj [])) "x").output =
        jsonLookup [] "output" ∧
    (parse_stdout_block (fun _ => some (Json.obj [])) "x").error =
        jsonLookup [] "error" ∧
    ((parse_stdout_block (fun _ => some (Json.obj [])) "x").success = true ↔
      (jsonLookup [] "error" = none ∨
        ∃ j, jsonLookup [] "error" = some j ∧ jsonTruthy j = false)) :=
  (parse_stdout_spec (fun _ => some (Json.obj [])) "x" (by decide)).2.1 [] rfl

/-- The parse-oracle of the C2 counterexample: the subprocess printed
`{"output": 5, "error": null}` as its final line. -/
def cexFields : List (String × Json) := [("output", Json.num 5), ("error", Json.null)]

/-- A parser returning the counterexample object. -/
def cexParse : String → Option Json := fun _ => some (Json.obj cexFields)

/-- Counterexample for C2: the parsed object carries an `error` field
(with value `null`), yet the sandbox reports `success = true` — success is
not equivalent to the absence of the `error` field. -/
theorem parse_stdout_counterexample :
    cexParse (lastLine "last") = some (Json.obj cexFields) ∧
    jsonLookup cexFields "error" = some Json.null ∧
    (parse_stdout_block cexParse "last").success = true :=
  ⟨rfl, rfl, rfl⟩

/-! ## researcher.Researcher: mutation-based hypotheses -/

/-- `researcher._mutate_code` (lines 326-334). -/
def mutate_code (original : String) : String :=
  if original = "" then "# Mutation of previous successful approach"
  else "# Mutated version\n" ++ original ++ "\n# TODO: Apply mutations here"

/-- The successful experiment picked by `random.choice(successful)`: the
draw is modelled by the sampled index `choiceIdx` reduced modulo the
number of successful experiments. -/
def chosen_successful (choiceIdx : ℕ) (recents : List Experiment) : Experiment :=
  (recents.filter (fun e => e.result.success)).getD
    (choiceIdx % (recents.filter (fun e => e.result.success)).length)
    ⟨blankHyp, ⟨false, none, "", ⟨none, none⟩⟩⟩

/-- `researcher._generate_mutations` (lines 281-324): empty unless some
recent experiment succeeded; otherwise pick a random successful experiment
as base, build the three candidate mutations, and keep only the first
(`mutations[:1]`) — a single `parameter_change` hypothesis.  (The
wall-clock `timestamp` field of the produced dict is not modelled; the
`approach`/`metrics` defaults of `.get` never fire since the fields are
always present here.) -/
def generate_mutations (choiceIdx : ℕ) (recents : List Experiment) :
    List Hypothesis :=
  let successful := recents.filter (fun e => e.result.success)
  if successful.isEmpty then []
  else
    let base_hypothesis := (chosen_successful choiceIdx recents).hypothesis
    let mutations : List (String × String) :=
      [("parameter_change", "Modify parameters in " ++ base_hypothesis.description),
       ("combination", "Combine " ++ base_hypothesis.description ++ " with new approach"),
       ("extension", "Extend " ++ base_hypothesis.description ++ " to handle edge cases")]
    (mutations.take 1).map (fun m =>
      { source := "mutation"
        description := m.2
        approach := m.1 ++ " of " ++ base_hypothesis.approach
        code_sketch := mutate_code base_hypothesis.code_sketch
        expected_outcome := "Improved upon previous success"
        metricsNames := base_hypothesis.metricsNames })

/-- C6 (amended): `_generate_mutations` produces hypotheses only when at
least one recent experiment succeeded; in that case it produces exactly one
mutated hypothesis, whose base is the randomly chosen successful
experiment (whichever the draw selects, not necessarily the most recent)
and whose archetype is always `parameter_change` — the `combination` and
`extension` archetypes are cut off by `mutations[:1]`. -/
theorem generate_mutations_spec (choiceIdx : ℕ) (recents : List Experiment) :
    (recents.filter (fun e => e.result.success) = [] →
      generate_mutations choiceIdx recents = []) ∧
    (recents.filter (fun e => e.result.success) ≠ [] →
      chosen_successful choiceIdx recents ∈
        recents.filter (fun e => e.result.success) ∧
      generate_mutations choiceIdx recents =
        [{ source := "mutation"
           description := "Modify parameters in " ++
             (chosen_successful choiceIdx recents).hypothesis.description
           approach := "parameter_change" ++ " of " ++
             (chosen_successful choiceIdx recents).hypothesis.approach
           code_sketch :=
             mutate_code (chosen_successful choiceIdx recents).hypothesis.code_sketch
           expected_outcome := "Improved upon previous success"
           metricsNames :=
             (chosen_successful choiceIdx recents).hypothesis.metricsNames }]) := by
  constructor
  · intro hempty
    simp [generate_mutations, hempty]
  · intro hne
    have hlen : 0 < (recents.filter (fun e => e.result.success)).length :=
      List.length_pos.mpr hne
    have hidx : choiceIdx % (recents.filter (fun e => e.result.success)).length <
        (recents.filter (fun e => e.result.success)).length :=
      Nat.mod_lt _ hlen
    constructor
    · rw [chosen_successful, List.getD_eq_get _ _ hidx]
      exact List.get_mem _ _ _
    · have hie : (recents.filter (fun e => e.result.success)).isEmpty = false := by
        rcases hl : recents.filter (fun e => e.result.success) with _ | ⟨a, t⟩
        · exact absurd hl hne
        · rw [hl]
          rfl
      simp [generate_mutations, hie]

/-- The C6 counterexample history: two successful experiments with
descriptions `"A"` and `"B"`. -/
def cexRecents : List Experiment :=
  [⟨{ blankHyp with description := "A" }, ⟨true, none, "", ⟨none, none⟩⟩⟩,
   ⟨{ blankHyp with description := "B" }, ⟨true, none, "", ⟨none, none⟩⟩⟩]

/-- Counterexample for C6: over the two possible random draws the mutation
base is sometimes `"A"` and sometimes `"B"` — so it is not always the most
recently successful hypothesis — and in both cases the produced archetype
is `parameter_change` (`combination` / `extension` never occur). -/
theorem generate_mutations_counterexample :
    ((generate_mutations 0 cexRecents).map (fun h => h.description) =
      ["Modify parameters in A"]) ∧
    ((generate_mutations 1 cexRecents).map (fun h => h.description) =
      ["Modify parameters in B"]) ∧
    ((generate_mutations 0 cexRecents).map (fun h => h.approach) =
      ["parameter_change of "]) ∧
    ((generate_mutations 1 cexRecents).map (fun h => h.approach) =
      ["parameter_change of "]) := by
  refine ⟨?_, ?_, ?_, ?_⟩ <;>
    simp [generate_mutations, chosen_successful, cexRecents, blankHyp, mutate_code]

/-- Witness for C6 applied to the two-successes history with draw 0. -/
theorem generate_mutations_spec_witness :
    chosen_successful 0 cexRecents ∈
      cexRecents.filter (fun e => e.result.success) ∧
    generate_mutations 0 cexRecents =
      [{ source := "mutation"
         description := "Modify parameters in " ++
           (chosen_successful 0 cexRecents).hypothesis.description
         approach := "parameter_change" ++ " of " ++
           (chosen_successful 0 cexRecents).hypothesis.approach
         code_sketch :=
           mutate_code (chosen_successful 0 cexRecents).hypothesis.code_sketch
         expected_outcome := "Improved upon previous success"
         metricsNames :=
           (chosen_successful 0 cexRecents).hypothesis.metricsNames }] :=
  (generate_mutations_spec 0 cexRecents).2 (by exact List.cons_ne_nil _ _)

/-- Witness for C5 (amended) at a concrete one-insight store. -/
theorem get_relevant_insights_spec_witness :
    ((get_relevant_insights 0 (7/10) "a b c" 5
        [(⟨"i1", 0, "a b c", (1 : ℝ), 0⟩ : Insight)]).1.map
          (fun i => i.usageCount) =
      [(⟨"i1", 0, "a b c", (1 : ℝ), 0⟩ : Insight)].map (fun i => i.usageCount +
        (if (7/10 : ℚ) < calculate_similarity (lowerStr "a b c") (lowerStr i.content)
         then 1 else 0))) ∧
    (∀ x ∈ (get_relevant_insights 0 (7/10) "a b c" 5
        [(⟨"i1", 0, "a b c", (1 : ℝ), 0⟩ : Insight)]).1,
      x.relevanceScore =
        age_factor ((0 : ℤ) - (x.timestamp : ℤ)) * usage_factor x.usageCount) ∧
    (get_relevant_insights 0 (7/10) "a b c" 5
      [(⟨"i1", 0, "a b c", (1 : ℝ), 0⟩ : Insight)]).2.length ≤ 5 ∧
    List.Sorted scoredDescRel
      (get_relevant_insights 0 (7/10) "a b c" 5
        [(⟨"i1", 0, "a b c", (1 : ℝ), 0⟩ : Insight)]).2 ∧
    (∀ s ∈ (get_relevant_insights 0 (7/10) "a b c" 5
        [(⟨"i1", 0, "a b c", (1 : ℝ), 0⟩ : Insight)]).2,
      (7/10 : ℚ) < s.relevance ∧
      s.relevance = calculate_similarity (lowerStr "a b c") (lowerStr s.insight)) :=
  get_relevant_insights_spec 0 (7/10) "a b c" 5 [⟨"i1", 0, "a b c", 1, 0⟩]
